import Mathlib

/-!
Shallow embedding of the clearnode broker's core data model and operations,
translated from the Go sources: the RPC codec (`RPCMessage`, `RPCData`,
`ParseRPCMessage`, `CreateResponse`, `MarshalJSON`, `UnmarshalJSON`), the
double-entry participant ledger (`Entry`, `ParticipantLedger.Record`,
`ParticipantLedger.Balance`, `ParticipantLedger.GetBalances`), the v2 token
registry (`asset_mapping`, `mapTokenToAsset`, `Channel`) and the asset store
(`GetAssetByToken`, `GetAssetBySymbol`).

Conventions of the embedding:
* Go's `decimal.Decimal` (arbitrary-precision decimal) is modelled by `ℚ`.
* Go's `uint64` values are modelled by `Nat`, with the `2 ^ 64` bound made
  explicit where a conversion or a parse enforces it.
* JSON documents are modelled by the inductive `Json` value type below; the
  lexical layer of `encoding/json` (byte-level scanning) is abstracted away,
  so numbers are modelled by their rational value; envelope members are
  processed in document order, matched to struct fields by tag name exactly
  or case-insensitively (ASCII case folding standing in for
  `strings.EqualFold`), later duplicates overwriting earlier ones, as
  `encoding/json` does.
* Fallible Go functions returning `(T, error)` are modelled with `Except`
  (or with an explicit error component where the Go code can return both a
  non-nil value and a non-nil error).
* Database effects are modelled by explicit state: the ledger table is the
  list of its rows, `db.Create` is an append, and SQL aggregate queries are
  folds over the filtered rows.
-/

/-- A JSON value. Models the documents handled by `encoding/json` in the Go
source: numbers carry their rational value (the decoder's integrality and
range checks for `uint64` targets are expressed on that value), arrays and
objects carry their elements in document order. -/
inductive Json where
  | null : Json
  | bool (b : Bool) : Json
  | num (q : ℚ) : Json
  | str (s : String) : Json
  | arr (elems : List Json) : Json
  | obj (members : List (String × Json)) : Json
deriving Repr, Inhabited

namespace Codec

/-- RPCData represents the common structure for both requests and responses.
Format: [request_id, type(req/res), method, params, ts]. -/
structure RPCData where
  RequestID : Nat
  type : String
  Method : String
  Params : List Json
  Timestamp : Nat
deriving Repr, Inhabited

/-- RPCMessage represents a complete message in the RPC protocol, including
data and signatures. The `Data` field carries the JSON tag `"data"`, the
`Sig` field the tag `"sig"`. -/
structure RPCMessage where
  Data : RPCData
  Sig : List String
deriving Repr, Inhabited

/-- Decoding a JSON value into a Go `uint64` variable: `null` is a no-op
(the freshly declared variable keeps its zero value), a number must be a
non-negative integer below `2 ^ 64`, and every other shape is an error. -/
def decodeUint64 (j : Json) : Except String Nat :=
  match j with
  | .null => .ok 0
  | .num q =>
    if q.den = 1 ∧ 0 ≤ q.num ∧ q.num < 2 ^ 64 then .ok q.num.toNat
    else .error "json: cannot unmarshal number into uint64"
  | _ => .error "json: cannot unmarshal value into uint64"

/-- Decoding a JSON value into a Go `string` variable: `null` is a no-op
(keeps the zero value `""`), a string decodes to itself, anything else is an
error. -/
def decodeString (j : Json) : Except String String :=
  match j with
  | .null => .ok ""
  | .str s => .ok s
  | _ => .error "json: cannot unmarshal value into string"

/-- Decoding a JSON value into a Go `[]any` variable: `null` yields the nil
slice, an array decodes element-wise (elements kept as JSON values), anything
else is an error. -/
def decodeParams (j : Json) : Except String (List Json) :=
  match j with
  | .null => .ok []
  | .arr xs => .ok xs
  | _ => .error "json: cannot unmarshal value into array"

/-- UnmarshalJSON of `RPCData` (from `func (m *RPCData) UnmarshalJSON`):
parse the value as a raw JSON array, require exactly 5 elements, then decode
`RequestID : uint64`, `Type : string`, `Method : string`, `Params : []any`
and `Timestamp : uint64` in that order. `null` input produces the nil raw
slice, which then fails the length check. -/
def RPCData.UnmarshalJSON (j : Json) : Except String RPCData := do
  let rawMsg ← match j with
    | .null => Except.ok ([] : List Json)
    | .arr xs => Except.ok xs
    | _ => Except.error "json: cannot unmarshal value into []json.RawMessage"
  match rawMsg with
  | [r0, r1, r2, r3, r4] => do
    let requestID ← decodeUint64 r0
    let ty ← decodeString r1
    let method ← decodeString r2
    let params ← decodeParams r3
    let timestamp ← decodeUint64 r4
    .ok { RequestID := requestID, type := ty, Method := method,
          Params := params, Timestamp := timestamp }
  | _ => .error "invalid message format: expected 4 elements"

/-- MarshalJSON of `RPCData`: the five fields emitted as a JSON array in
declared order `[RequestID, Type, Method, Params, Timestamp]`. -/
def RPCData.MarshalJSON (m : RPCData) : Json :=
  .arr [.num (m.RequestID : ℚ), .str m.type, .str m.Method,
        .arr m.Params, .num (m.Timestamp : ℚ)]

/-- CreateResponse builds a response message: the request id is echoed, the
type is `"res"`, method and params are the given ones, the timestamp is the
wall-clock time's whole seconds since the Unix epoch (`time.Time.Unix`, an
`int64`) converted to `uint64`, and the signature list is empty. The time
argument is modelled by its `Unix()` value in seconds. -/
def CreateResponse (id : Nat) (method : String) (responseParams : List Json)
    (newTimestampUnix : Int) : RPCMessage :=
  { Data := { RequestID := id, type := "res", Method := method,
              Params := responseParams,
              Timestamp := (newTimestampUnix % (2 ^ 64 : Int)).toNat },
    Sig := [] }

/-- Minimal string escaping of the JSON encoder: backslash and double quote
are escaped; other characters are emitted as they are. -/
def escapeChar (c : Char) : String :=
  if c = '"' then "\\\""
  else if c = '\\' then "\\\\"
  else String.singleton c

/-- Rendering a JSON string literal. -/
def renderString (s : String) : String :=
  "\"" ++ String.join (s.toList.map escapeChar) ++ "\""

/-- Rendering a JSON number; integers are emitted bare, and a non-integral
rational is emitted as a numerator/denominator pair (a deterministic
stand-in for the encoder's floating-point formatting). -/
def renderNum (q : ℚ) : String :=
  if q.den = 1 then toString q.num
  else toString q.num ++ "/" ++ toString q.den

mutual

/-- Deterministic rendering of a JSON value to its wire text, with no
whitespace, arrays and object members emitted in stored order. -/
def renderJson : Json → String
  | .null => "null"
  | .bool b => if b then "true" else "false"
  | .num q => renderNum q
  | .str s => renderString s
  | .arr xs => "[" ++ renderList xs ++ "]"
  | .obj fs => "\x7b" ++ renderMembers fs ++ "\x7d"

/-- Comma-separated rendering of array elements. -/
def renderList : List Json → String
  | [] => ""
  | [x] => renderJson x
  | x :: xs => renderJson x ++ "," ++ renderList xs

/-- Comma-separated rendering of object members. -/
def renderMembers : List (String × Json) → String
  | [] => ""
  | [(k, v)] => renderString k ++ ":" ++ renderJson v
  | (k, v) :: fs => renderString k ++ ":" ++ renderJson v ++ "," ++ renderMembers fs

end

/-- The signable bytes of a message: the serialization of its data array
(`json.Marshal(msg.Req)` in the handlers), a function of the `Data` field
only — the signature list takes no part. -/
def RPCMessage.signableBytes (msg : RPCMessage) : String :=
  renderJson msg.Data.MarshalJSON

end Codec

namespace Ledger

/-- Entry represents a ledger entry in the database (`ledger` table): the
account id, the numeric account type, the participant address, the asset
symbol and the credit/debit decimal columns. The surrogate row id and the
creation timestamp take no part in any aggregate and are omitted. -/
structure Entry where
  AccountID : String
  AccountType : Nat
  Participant : String
  AssetSymbol : String
  Credit : ℚ
  Debit : ℚ
deriving Repr, DecidableEq, Inhabited

/-- A ledger handle bound to one participant, together with the current
contents of the `ledger` table (the `*gorm.DB` state made explicit). -/
structure ParticipantLedger where
  participant : String
  db : List Entry
deriving Repr, Inhabited

/-- Record appends one row: credit = amount when the amount is positive,
debit = |amount| when it is negative, and no row at all when it is zero
(the function returns before touching the database). -/
def ParticipantLedger.Record (l : ParticipantLedger) (accountID : String)
    (assetSymbol : String) (amount : ℚ) : ParticipantLedger :=
  let entry : Entry :=
    { AccountID := accountID, AccountType := 0, Participant := l.participant,
      AssetSymbol := assetSymbol, Credit := 0, Debit := 0 }
  if 0 < amount then { l with db := l.db ++ [{ entry with Credit := amount }] }
  else if amount < 0 then { l with db := l.db ++ [{ entry with Debit := |amount| }] }
  else l

/-- Balance runs `SELECT COALESCE(SUM(credit),0) - COALESCE(SUM(debit),0)`
over the rows with `account_id = ? AND asset_symbol = ?`. The `WHERE` clause
of the source names only these two columns: the ledger's participant is not
part of the filter. -/
def ParticipantLedger.Balance (l : ParticipantLedger) (accountID : String)
    (assetSymbol : String) : ℚ :=
  let rows := l.db.filter fun e =>
    e.AccountID == accountID && e.AssetSymbol == assetSymbol
  (rows.map Entry.Credit).sum - (rows.map Entry.Debit).sum

/-- One result row of `GetBalances`. -/
structure Balance where
  AssetSymbol : String
  Amount : ℚ
deriving Repr, DecidableEq, Inhabited

/-- GetBalances runs the same aggregate grouped by `asset_symbol` over the
rows with `account_id = ? AND participant = ?`: one result row per distinct
asset symbol among the filtered rows. -/
def ParticipantLedger.GetBalances (l : ParticipantLedger) (accountID : String) :
    List Ledger.Balance :=
  let rows := l.db.filter fun e =>
    e.AccountID == accountID && e.Participant == l.participant
  let symbols := (rows.map Entry.AssetSymbol).eraseDups
  symbols.map fun s =>
    let grp := rows.filter fun e => e.AssetSymbol == s
    { AssetSymbol := s,
      Amount := (grp.map Entry.Credit).sum - (grp.map Entry.Debit).sum }

/-- A sequence of `Record` calls, each op giving the account id, the asset
symbol and the signed amount, applied in order to a ledger handle. -/
def applyRecords (l : ParticipantLedger) (ops : List (String × String × ℚ)) :
    ParticipantLedger :=
  ops.foldl (fun acc op => acc.Record op.1 op.2.1 op.2.2) l

/-- The exactly-one-of-credit/debit row invariant stated by the spec. -/
def entryInvariant (e : Entry) : Prop :=
  (0 < e.Credit ∧ e.Debit = 0) ∨ (e.Credit = 0 ∧ 0 < e.Debit)

instance (e : Entry) : Decidable (entryInvariant e) := by
  unfold entryInvariant; infer_instance

/-- Stated from the spec's words, for comparison with the source's
`Balance`: the balance derived as `Σ credit − Σ debit` over the rows
matching the full triple `(account_id, participant, asset_symbol)`. -/
def specParticipantBalance (l : ParticipantLedger) (accountID : String)
    (assetSymbol : String) : ℚ :=
  let rows := l.db.filter fun e =>
    e.AccountID == accountID && e.Participant == l.participant
      && e.AssetSymbol == assetSymbol
  (rows.map Entry.Credit).sum - (rows.map Entry.Debit).sum

/-- The sum of the amounts of the ops aimed at one (account, asset) pair. -/
def opsAmountSum (ops : List (String × String × ℚ)) (accountID : String)
    (assetSymbol : String) : ℚ :=
  ((ops.filter fun o => o.1 == accountID && o.2.1 == assetSymbol).map
    fun o => o.2.2).sum

end Ledger

namespace NodeV2

/-- A logical asset of the v2 registry, identified by its symbol. -/
structure Asset where
  ID : String
deriving Repr, DecidableEq, Inhabited

/-- The static token registry: key `"<network>_<token>"` to asset. -/
def asset_mapping : List (String × Asset) :=
  [("137_usdc_polygon_adress", { ID := "usdc" }),
   ("1_usdc_eth_adress", { ID := "usdc" })]

/-- The identifier built by `fmt.Sprint("%v_%s", networkID, tokenAddress)`.
`fmt.Sprint` (not `Sprintf`) interprets no verbs: it concatenates the
operands, inserting a space only between two adjacent operands when neither
is a string — here the number sits between two strings, so the result is
the verbatim format string, the decimal digits of the network id and the
token address, concatenated. -/
def sprintIdentifier (tokenAddress : String) (networkID : Nat) : String :=
  "%v_%s" ++ Nat.repr networkID ++ tokenAddress

/-- mapTokenToAsset looks the built identifier up in `asset_mapping` and
returns the `unknown token` error when the key is absent. -/
def mapTokenToAsset (tokenAddress : String) (networkID : Nat) :
    Except String Asset :=
  let identifier := sprintIdentifier tokenAddress networkID
  match asset_mapping.lookup identifier with
  | none => .error "unknown token"
  | some asset => .ok asset

/-- An on-chain channel of the v2 model. -/
structure Channel where
  ParticipantAddress : String
  NetworkID : Nat
  TokenAddress : String
  OnChainBalance : ℚ
deriving Repr, Inhabited

/-- The ledger-account id constructor, from the repository's API document:
`fmt.Sprintf("%s_%s_%s", vAppSessionId, partipantAddress, asset.ID)`. -/
def getLedgerAccountID (vAppSessionId : String) (partipantAddress : String)
    (asset : Asset) : String :=
  vAppSessionId ++ "_" ++ partipantAddress ++ "_" ++ asset.ID

/-- GetAssociatedLedgerAccountID maps the channel's token to an asset and
panics on error; the panic is modelled by `none`, the normal return by
`some`. -/
def Channel.GetAssociatedLedgerAccountID (c : Channel) : Option String :=
  match mapTokenToAsset c.TokenAddress c.NetworkID with
  | .error _ => none
  | .ok asset => some (getLedgerAccountID "" c.ParticipantAddress asset)

end NodeV2

namespace AssetStore

/-- One row of the `assets` table of `asset.go`: `(token_address, chain_id)`
is the primary key, `symbol` groups tokens into one logical asset. -/
structure Asset where
  Symbol : String
  TokenAddress : String
  ChainID : Nat
  Decimals : Nat
deriving Repr, DecidableEq, Inhabited

/-- The gorm errors distinguished by the source: the record-not-found
sentinel, and any other backend failure. -/
inductive GormError where
  | ErrRecordNotFound : GormError
  | other (msg : String) : GormError
deriving Repr, DecidableEq

/-- The `assets` table together with an optional injected backend failure
(modelling the non-not-found error path of a query). -/
structure AssetDB where
  assets : List Asset
  failure : Option String
deriving Repr, Inhabited

/-- `db.Where(...).First(&asset)`: a backend failure surfaces as is; an
empty result set surfaces as `ErrRecordNotFound`; otherwise the first
matching row is returned. -/
def First (db : AssetDB) (p : Asset → Bool) : Except GormError Asset :=
  match db.failure with
  | some m => .error (.other m)
  | none =>
    match db.assets.find? p with
    | some a => .ok a
    | none => .error .ErrRecordNotFound

/-- The zero-valued `Asset` variable whose address Go returns even on the
error path. -/
def zeroAsset : Asset :=
  { Symbol := "", TokenAddress := "", ChainID := 0, Decimals := 0 }

/-- GetAssetByToken: query by `(token_address, chain_id)`; a not-found
result is absorbed into `(nil, nil)`; any other error is returned together
with the (zero-valued) asset pointer. -/
def GetAssetByToken (db : AssetDB) (tokenAddress : String) (chainID : Nat) :
    Option Asset × Option GormError :=
  match First db (fun a => a.TokenAddress == tokenAddress && a.ChainID == chainID) with
  | .ok a => (some a, none)
  | .error .ErrRecordNotFound => (none, none)
  | .error e => (some zeroAsset, some e)

/-- GetAssetBySymbol: query by `(symbol, chain_id)`; same error shape as
`GetAssetByToken`. -/
def GetAssetBySymbol (db : AssetDB) (symbol : String) (chainID : Nat) :
    Option Asset × Option GormError :=
  match First db (fun a => a.Symbol == symbol && a.ChainID == chainID) with
  | .ok a => (some a, none)
  | .error .ErrRecordNotFound => (none, none)
  | .error e => (some zeroAsset, some e)

end AssetStore

section ClaimTheorems

/-- C1: the claim says `ParticipantLedger.Balance` restricts the credit/debit
sum to the ledger's participant. On the session-account table holding a
credit of 100 for participant `0xA` and a credit of 200 for participant
`0xB`, the source's `Balance` for the ledger of `0xA` returns 300 — the sum
across all participants — while the participant-restricted sum of the spec
(and the value the repository's own test asserts for this scenario) is 100;
`GetBalances` does restrict to the participant as claimed. -/
theorem c1_balance_ignores_participant :
    Ledger.ParticipantLedger.Balance
      ⟨"0xA", [⟨"0xVApp123", 0, "0xA", "usdc", 100, 0⟩,
               ⟨"0xVApp123", 0, "0xB", "usdc", 200, 0⟩]⟩ "0xVApp123" "usdc" = 300
    ∧ Ledger.specParticipantBalance
      ⟨"0xA", [⟨"0xVApp123", 0, "0xA", "usdc", 100, 0⟩,
               ⟨"0xVApp123", 0, "0xB", "usdc", 200, 0⟩]⟩ "0xVApp123" "usdc" = 100
    ∧ Ledger.ParticipantLedger.GetBalances
      ⟨"0xA", [⟨"0xVApp123", 0, "0xA", "usdc", 100, 0⟩,
               ⟨"0xVApp123", 0, "0xB", "usdc", 200, 0⟩]⟩ "0xVApp123"
      = [⟨"usdc", 100⟩]
    ∧ (300 : ℚ) ≠ 100 := by
  refine ⟨?_, ?_, ?_, by norm_num⟩ <;>
    norm_num [Ledger.ParticipantLedger.Balance, Ledger.specParticipantBalance,
      Ledger.ParticipantLedger.GetBalances, List.filter, List.eraseDups,
      List.eraseDups.loop, show (("0xB" == "0xA") = false) from rfl]

/-- C3 counterexample: a single call to the recording operation with amount
−1 on an empty ledger leaves the derived balance of the touched
(account, participant, asset) triple at −1 < 0, so the code does not keep
balances non-negative under arbitrary accepted `Record` calls. -/
theorem c3_counterexample :
    Ledger.ParticipantLedger.Balance
      (Ledger.ParticipantLedger.Record ⟨"0xA", []⟩ "acct" "usdc" (-1))
      "acct" "usdc" = -1
    ∧ (-1 : ℚ) < 0 := by
  refine ⟨?_, by norm_num⟩
  norm_num [Ledger.ParticipantLedger.Record, Ledger.ParticipantLedger.Balance,
    List.filter]

/-- C6 counterexample: for the wall-clock time one second before the Unix
epoch (`Unix() = −1`), `CreateResponse` stores `uint64(−1) = 2 ^ 64 − 1`,
not the time's whole seconds since the epoch. -/
theorem c6_counterexample :
    (Codec.CreateResponse 1 "pong" [] (-1)).Data.Timestamp = 2 ^ 64 - 1
    ∧ ((Codec.CreateResponse 1 "pong" [] (-1)).Data.Timestamp : Int) ≠ -1 := by
  refine ⟨by decide, by decide⟩

/-- C7: `mapTokenToAsset` builds its lookup key with `fmt.Sprint` instead of
`fmt.Sprintf`, so the key for the registered pair
(`usdc_polygon_adress`, 137) is the literal `%v_%s137usdc_polygon_adress`
and the lookup misses: the function returns the `unknown token` error even
though `137_usdc_polygon_adress` is registered in the mapping. -/
theorem c7_map_token_always_misses :
    NodeV2.mapTokenToAsset "usdc_polygon_adress" 137 = .error "unknown token"
    ∧ NodeV2.asset_mapping.lookup "137_usdc_polygon_adress" = some ⟨"usdc"⟩
    ∧ NodeV2.sprintIdentifier "usdc_polygon_adress" 137
      = "%v_%s137usdc_polygon_adress" := by
  refine ⟨rfl, rfl, rfl⟩

/-- C8: for a channel whose (token, network) pair is registered in the
asset mapping, `GetAssociatedLedgerAccountID` still reaches the panic
branch (modelled by `none`), because `mapTokenToAsset` never finds the
mis-built key. -/
theorem c8_get_associated_account_panics :
    NodeV2.Channel.GetAssociatedLedgerAccountID
      ⟨"0xabc", 137, "usdc_polygon_adress", 0⟩ = none
    ∧ (NodeV2.asset_mapping.lookup "137_usdc_polygon_adress").isSome = true := by
  refine ⟨rfl, rfl⟩

/-- Balance of a table extended by one row: the row contributes its credit
minus its debit when it matches the (account, asset) filter. -/
lemma ledger_balance_append (p : String) (d : List Ledger.Entry) (e : Ledger.Entry)
    (a s : String) :
    Ledger.ParticipantLedger.Balance ⟨p, d ++ [e]⟩ a s
      = Ledger.ParticipantLedger.Balance ⟨p, d⟩ a s
        + (if (e.AccountID == a && e.AssetSymbol == s) = true
           then e.Credit - e.Debit else 0) := by
  by_cases h : (e.AccountID == a && e.AssetSymbol == s) = true
  · simp [Ledger.ParticipantLedger.Balance, List.filter_append, h]
    ring
  · simp [Ledger.ParticipantLedger.Balance, List.filter_append, h]

/-- One `Record` call moves the (account, asset) balance by exactly the
signed amount when the op targets that pair, and not at all otherwise. -/
lemma ledger_record_balance_step (l : Ledger.ParticipantLedger) (a0 s0 : String)
    (q : ℚ) (a s : String) :
    (l.Record a0 s0 q).Balance a s
      = l.Balance a s + (if (a0 == a && s0 == s) = true then q else 0) := by
  rcases lt_trichotomy q 0 with hq | hq | hq
  · have h1 : ¬ (0 : ℚ) < q := not_lt.mpr hq.le
    have h2 : l.Record a0 s0 q
        = ⟨l.participant, l.db ++ [⟨a0, 0, l.participant, s0, 0, |q|⟩]⟩ := by
      simp [Ledger.ParticipantLedger.Record, h1, hq]
    rw [h2, ledger_balance_append]
    have hl : Ledger.ParticipantLedger.Balance ⟨l.participant, l.db⟩ a s
        = l.Balance a s := rfl
    rw [hl]
    by_cases hc : (a0 == a && s0 == s) = true
    · simp only [hc, if_true]
      rw [abs_of_neg hq]
      ring
    · simp [hc]
  · subst hq
    have h2 : l.Record a0 s0 0 = l := by
      simp [Ledger.ParticipantLedger.Record]
    rw [h2]
    simp
  · have h2 : l.Record a0 s0 q
        = ⟨l.participant, l.db ++ [⟨a0, 0, l.participant, s0, q, 0⟩]⟩ := by
      simp [Ledger.ParticipantLedger.Record, hq]
    rw [h2, ledger_balance_append]
    have hl : Ledger.ParticipantLedger.Balance ⟨l.participant, l.db⟩ a s
        = l.Balance a s := rfl
    rw [hl]
    by_cases hc : (a0 == a && s0 == s) = true
    · simp [hc]
    · simp [hc]

/-- Unfolding `opsAmountSum` over the head op. -/
lemma ledger_opsAmountSum_cons (o : String × String × ℚ)
    (ops : List (String × String × ℚ)) (a s : String) :
    Ledger.opsAmountSum (o :: ops) a s
      = (if (o.1 == a && o.2.1 == s) = true then o.2.2 else 0)
        + Ledger.opsAmountSum ops a s := by
  by_cases h : (o.1 == a && o.2.1 == s) = true
  · simp [Ledger.opsAmountSum, List.filter_cons, h]
  · simp [Ledger.opsAmountSum, List.filter_cons, h]

/-- Every row present after a `Record` call was already present or satisfies
the exactly-one-of-credit/debit invariant. -/
lemma ledger_record_mem (l : Ledger.ParticipantLedger) (a s : String) (q : ℚ) :
    ∀ e ∈ (l.Record a s q).db, e ∈ l.db ∨ Ledger.entryInvariant e := by
  intro e he
  rcases lt_trichotomy q 0 with hq | hq | hq
  · have h1 : ¬ (0 : ℚ) < q := not_lt.mpr hq.le
    rw [show l.Record a s q
        = ⟨l.participant, l.db ++ [⟨a, 0, l.participant, s, 0, |q|⟩]⟩ from by
      simp [Ledger.ParticipantLedger.Record, h1, hq]] at he
    rcases List.mem_append.mp he with h | h
    · exact Or.inl h
    · right
      rw [List.mem_singleton.mp h]
      exact Or.inr ⟨rfl, abs_pos.mpr hq.ne⟩
  · subst hq
    rw [show l.Record a s 0 = l from by
      simp [Ledger.ParticipantLedger.Record]] at he
    exact Or.inl he
  · rw [show l.Record a s q
        = ⟨l.participant, l.db ++ [⟨a, 0, l.participant, s, q, 0⟩]⟩ from by
      simp [Ledger.ParticipantLedger.Record, hq]] at he
    rcases List.mem_append.mp he with h | h
    · exact Or.inl h
    · right
      rw [List.mem_singleton.mp h]
      exact Or.inl ⟨hq, rfl⟩

/-- A sequence of `Record` calls keeps the row invariant of the table. -/
lemma ledger_records_keep_invariant (ops : List (String × String × ℚ)) :
    ∀ l : Ledger.ParticipantLedger, (∀ e ∈ l.db, Ledger.entryInvariant e) →
      ∀ e ∈ (Ledger.applyRecords l ops).db, Ledger.entryInvariant e := by
  induction ops with
  | nil => intro l hl e he; exact hl e he
  | cons o ops ih =>
    intro l hl e he
    have hstep : Ledger.applyRecords l (o :: ops)
        = Ledger.applyRecords (l.Record o.1 o.2.1 o.2.2) ops := by
      simp [Ledger.applyRecords]
    rw [hstep] at he
    refine ih (l.Record o.1 o.2.1 o.2.2) ?_ e he
    intro x hx
    rcases ledger_record_mem l o.1 o.2.1 o.2.2 x hx with h | h
    · exact hl x h
    · exact h

/-- C2: `Record` of a positive amount appends exactly one row carrying the
amount as credit and zero debit; a negative amount appends exactly one row
carrying the absolute amount as debit and zero credit; a zero amount leaves
the table untouched (the function returns before reaching the database, so
no error can arise); hence every row introduced by a `Record` call — and
every row of a table populated only by `Record` calls — has exactly one of
credit/debit non-zero. -/
theorem c2_record_row_invariant :
    ∀ (l : Ledger.ParticipantLedger) (a s : String) (q : ℚ),
      (q = 0 → l.Record a s q = l)
      ∧ (0 < q → (l.Record a s q).db = l.db ++ [⟨a, 0, l.participant, s, q, 0⟩])
      ∧ (q < 0 → (l.Record a s q).db = l.db ++ [⟨a, 0, l.participant, s, 0, |q|⟩])
      ∧ (∀ e ∈ (l.Record a s q).db, e ∈ l.db ∨ Ledger.entryInvariant e)
      ∧ (∀ (p : String) (ops : List (String × String × ℚ)),
          ∀ e ∈ (Ledger.applyRecords ⟨p, []⟩ ops).db, Ledger.entryInvariant e) := by
  intro l a s q
  refine ⟨?_, ?_, ?_, ledger_record_mem l a s q, ?_⟩
  · intro h
    subst h
    simp [Ledger.ParticipantLedger.Record]
  · intro h
    simp [Ledger.ParticipantLedger.Record, h]
  · intro h
    simp [Ledger.ParticipantLedger.Record, not_lt.mpr h.le, h]
  · intro p ops e he
    exact ledger_records_keep_invariant ops ⟨p, []⟩ (by simp) e he

/-- Witness for C2 at concrete inputs: amount 0 is a no-op, amount 5 appends
the credit row, amount −2 appends the debit row carrying 2. -/
theorem c2_record_row_invariant_witness :
    (Ledger.ParticipantLedger.Record ⟨"0xA", []⟩ "acct" "usdc" 0 = ⟨"0xA", []⟩)
    ∧ ((Ledger.ParticipantLedger.Record ⟨"0xA", []⟩ "acct" "usdc" 5).db
        = [⟨"acct", 0, "0xA", "usdc", 5, 0⟩])
    ∧ ((Ledger.ParticipantLedger.Record ⟨"0xA", []⟩ "acct" "usdc" (-2)).db
        = [⟨"acct", 0, "0xA", "usdc", 0, 2⟩]) := by
  refine ⟨(c2_record_row_invariant ⟨"0xA", []⟩ "acct" "usdc" 0).1 rfl, ?_, ?_⟩
  · have h := (c2_record_row_invariant ⟨"0xA", []⟩ "acct" "usdc" 5).2.1 (by norm_num)
    simpa using h
  · have h := (c2_record_row_invariant ⟨"0xA", []⟩ "acct" "usdc" (-2)).2.2.1 (by norm_num)
    have habs : |(-2 : ℚ)| = 2 := by norm_num
    rw [habs] at h
    simpa using h

/-- C3 amended: the recording operation performs no balance check — after
any sequence of `Record` calls the derived balance of an (account, asset)
pair equals the starting balance plus the sum of the signed amounts recorded
for that pair (regardless of recording participant), so the balance is
non-negative exactly when that running total is, and a sequence whose
amounts sum below the starting balance's negation drives it negative. -/
theorem c3_balance_after_records (l : Ledger.ParticipantLedger)
    (ops : List (String × String × ℚ)) (a s : String) :
    (Ledger.applyRecords l ops).Balance a s
      = l.Balance a s + Ledger.opsAmountSum ops a s := by
  induction ops generalizing l with
  | nil => simp [Ledger.applyRecords, Ledger.opsAmountSum]
  | cons o ops ih =>
    have hstep : Ledger.applyRecords l (o :: ops)
        = Ledger.applyRecords (l.Record o.1 o.2.1 o.2.2) ops := by
      simp [Ledger.applyRecords]
    rw [hstep, ih, ledger_record_balance_step, ledger_opsAmountSum_cons]
    ring

/-- Bind on a successful `Except` computation runs the continuation. -/
lemma except_ok_bind {α β : Type} (a : α) (f : α → Except String β) :
    (Except.ok a >>= f : Except String β) = f a := rfl

/-- Unfolding `RPCData.UnmarshalJSON` on a 5-element array into its chain of
slot decoders. -/
lemma unmarshal_five (r0 r1 r2 r3 r4 : Json) :
    Codec.RPCData.UnmarshalJSON (Json.arr [r0, r1, r2, r3, r4])
    = (Codec.decodeUint64 r0 >>= fun requestID =>
       Codec.decodeString r1 >>= fun t =>
       Codec.decodeString r2 >>= fun method =>
       Codec.decodeParams r3 >>= fun params =>
       Codec.decodeUint64 r4 >>= fun timestamp =>
       Except.ok { RequestID := requestID, type := t, Method := method,
                   Params := params, Timestamp := timestamp }) := rfl

/-- C5: serialization of the data array is deterministic — it is a function
of the five field values alone — and the signable bytes of a message depend
only on its `Data`, never on its signature list. -/
theorem c5_signable_bytes_deterministic :
    ∀ (d1 d2 : Codec.RPCData) (m1 m2 : Codec.RPCMessage),
      (d1.RequestID = d2.RequestID → d1.type = d2.type → d1.Method = d2.Method →
        d1.Params = d2.Params → d1.Timestamp = d2.Timestamp →
        Codec.renderJson d1.MarshalJSON = Codec.renderJson d2.MarshalJSON)
      ∧ (m1.Data = m2.Data → m1.signableBytes = m2.signableBytes) := by
  intro d1 d2 m1 m2
  constructor
  · intro h1 h2 h3 h4 h5
    have hd : d1 = d2 := by
      cases d1
      cases d2
      simp_all
    rw [hd]
  · intro h
    simp [Codec.RPCMessage.signableBytes, h]

/-- Witness for C5: two messages with equal data but different signature
lists have equal signable bytes. -/
theorem c5_signable_bytes_deterministic_witness :
    Codec.RPCMessage.signableBytes ⟨⟨1, "req", "ping", [], 2⟩, ["a"]⟩
      = Codec.RPCMessage.signableBytes ⟨⟨1, "req", "ping", [], 2⟩, ["b", "c"]⟩
    ∧ Codec.renderJson (Codec.RPCData.MarshalJSON ⟨1, "req", "ping", [], 2⟩)
      = Codec.renderJson (Codec.RPCData.MarshalJSON ⟨1, "req", "ping", [], 2⟩) :=
  ⟨(c5_signable_bytes_deterministic ⟨1, "req", "ping", [], 2⟩
      ⟨1, "req", "ping", [], 2⟩ ⟨⟨1, "req", "ping", [], 2⟩, ["a"]⟩
      ⟨⟨1, "req", "ping", [], 2⟩, ["b", "c"]⟩).2 rfl,
   (c5_signable_bytes_deterministic ⟨1, "req", "ping", [], 2⟩
      ⟨1, "req", "ping", [], 2⟩ ⟨⟨1, "req", "ping", [], 2⟩, ["a"]⟩
      ⟨⟨1, "req", "ping", [], 2⟩, ["b", "c"]⟩).1 rfl rfl rfl rfl rfl⟩

/-- C6 amended: `CreateResponse` echoes the request id, sets type `"res"`,
method and params as given and an empty signature list, and stores the
wall-clock time's whole seconds converted to `uint64` — which equals the
whole seconds since the epoch exactly on the non-negative (post-epoch)
`int64` range; a pre-epoch time wraps modulo `2 ^ 64`. -/
theorem c6_create_response_fields :
    ∀ (id : Nat) (method : String) (params : List Json) (t : Int),
      (Codec.CreateResponse id method params t).Data.RequestID = id
      ∧ (Codec.CreateResponse id method params t).Data.type = "res"
      ∧ (Codec.CreateResponse id method params t).Data.Method = method
      ∧ (Codec.CreateResponse id method params t).Data.Params = params
      ∧ (Codec.CreateResponse id method params t).Sig = []
      ∧ (Codec.CreateResponse id method params t).Data.Timestamp
          = (t % 2 ^ 64).toNat
      ∧ (0 ≤ t → t < 2 ^ 63 →
          ((Codec.CreateResponse id method params t).Data.Timestamp : Int) = t) := by
  intro id method params t
  refine ⟨rfl, rfl, rfl, rfl, rfl, rfl, ?_⟩
  intro h0 h1
  have hlt : t < 2 ^ 64 := by
    calc t < 2 ^ 63 := h1
    _ < 2 ^ 64 := by norm_num
  have hmod : t % 2 ^ 64 = t := Int.emod_eq_of_lt h0 hlt
  have hcast : ((t % 2 ^ 64).toNat : Int) = t := by
    rw [hmod]
    exact Int.toNat_of_nonneg h0
  simpa [Codec.CreateResponse] using hcast

/-- Witness for C6 at the post-epoch time 1700000000 s. -/
theorem c6_create_response_fields_witness :
    ((Codec.CreateResponse 3 "pong" [] 1700000000).Data.Timestamp : Int)
      = 1700000000 :=
  (c6_create_response_fields 3 "pong" [] 1700000000).2.2.2.2.2.2
    (by norm_num) (by norm_num)

/-- C9: unmarshalling the bytes produced by `MarshalJSON` succeeds and
returns the same data value — request id, type, method, timestamp and the
params as the same JSON values — whenever the two numeric fields fit in
`uint64` (as every value produced by the Go struct does). -/
theorem c9_marshal_unmarshal_roundtrip (d : Codec.RPCData)
    (h1 : d.RequestID < 2 ^ 64) (h2 : d.Timestamp < 2 ^ 64) :
    Codec.RPCData.UnmarshalJSON d.MarshalJSON = .ok d := by
  obtain ⟨id, ty, me, ps, ts⟩ := d
  simp only at h1 h2
  have e0 : Codec.decodeUint64 (Json.num (id : ℚ)) = .ok id := by
    rw [Codec.decodeUint64, if_pos]
    · simp
    · refine ⟨Rat.den_natCast id, Int.natCast_nonneg id, ?_⟩
      rw [Rat.num_natCast]
      exact_mod_cast h1
  have e4 : Codec.decodeUint64 (Json.num (ts : ℚ)) = .ok ts := by
    rw [Codec.decodeUint64, if_pos]
    · simp
    · refine ⟨Rat.den_natCast ts, Int.natCast_nonneg ts, ?_⟩
      rw [Rat.num_natCast]
      exact_mod_cast h2
  have hm : Codec.RPCData.MarshalJSON ⟨id, ty, me, ps, ts⟩
      = Json.arr [Json.num (id : ℚ), Json.str ty, Json.str me,
                  Json.arr ps, Json.num (ts : ℚ)] := rfl
  rw [hm, unmarshal_five, e0, except_ok_bind]
  rw [show Codec.decodeString (Json.str ty) = Except.ok ty from rfl, except_ok_bind]
  rw [show Codec.decodeString (Json.str me) = Except.ok me from rfl, except_ok_bind]
  rw [show Codec.decodeParams (Json.arr ps) = Except.ok ps from rfl, except_ok_bind]
  rw [e4, except_ok_bind]

/-- Witness for C9 at a concrete data value. -/
theorem c9_marshal_unmarshal_roundtrip_witness :
    Codec.RPCData.UnmarshalJSON
      (Codec.RPCData.MarshalJSON ⟨1, "req", "ping", [Json.str "x"], 2⟩)
      = .ok ⟨1, "req", "ping", [Json.str "x"], 2⟩ :=
  c9_marshal_unmarshal_roundtrip ⟨1, "req", "ping", [Json.str "x"], 2⟩
    (by norm_num) (by norm_num)

/-- C10: when no asset row matches and the backend reports no failure, both
`GetAssetByToken` and `GetAssetBySymbol` return a nil asset with a nil error
(the record-not-found condition is absorbed); a non-nil error is returned
only when the backend failed with a non-not-found error. -/
theorem c10_not_found_absorbed :
    ∀ (db : AssetStore.AssetDB) (token symbol : String) (chain : Nat),
      (db.failure = none →
        db.assets.find? (fun a => a.TokenAddress == token && a.ChainID == chain)
          = none →
        AssetStore.GetAssetByToken db token chain = (none, none))
      ∧ (db.failure = none →
        db.assets.find? (fun a => a.Symbol == symbol && a.ChainID == chain)
          = none →
        AssetStore.GetAssetBySymbol db symbol chain = (none, none))
      ∧ (∀ e, (AssetStore.GetAssetByToken db token chain).2 = some e →
          ∃ m, db.failure = some m ∧ e = .other m)
      ∧ (∀ e, (AssetStore.GetAssetBySymbol db symbol chain).2 = some e →
          ∃ m, db.failure = some m ∧ e = .other m) := by
  intro db token symbol chain
  refine ⟨?_, ?_, ?_, ?_⟩
  · intro hf hn
    simp [AssetStore.GetAssetByToken, AssetStore.First, hf, hn]
  · intro hf hn
    simp [AssetStore.GetAssetBySymbol, AssetStore.First, hf, hn]
  · intro e he
    cases hf : db.failure with
    | some m =>
      refine ⟨m, rfl, ?_⟩
      simp [AssetStore.GetAssetByToken, AssetStore.First, hf] at he
      exact he.symm
    | none =>
      exfalso
      cases hn : db.assets.find?
          (fun a => a.TokenAddress == token && a.ChainID == chain) with
      | some a => simp [AssetStore.GetAssetByToken, AssetStore.First, hf, hn] at he
      | none => simp [AssetStore.GetAssetByToken, AssetStore.First, hf, hn] at he
  · intro e he
    cases hf : db.failure with
    | some m =>
      refine ⟨m, rfl, ?_⟩
      simp [AssetStore.GetAssetBySymbol, AssetStore.First, hf] at he
      exact he.symm
    | none =>
      exfalso
      cases hn : db.assets.find?
          (fun a => a.Symbol == symbol && a.ChainID == chain) with
      | some a => simp [AssetStore.GetAssetBySymbol, AssetStore.First, hf, hn] at he
      | none => simp [AssetStore.GetAssetBySymbol, AssetStore.First, hf, hn] at he

/-- Witness for C10 on the empty table with no backend failure. -/
theorem c10_not_found_absorbed_witness :
    AssetStore.GetAssetByToken ⟨[], none⟩ "0xT" 137 = (none, none)
    ∧ AssetStore.GetAssetBySymbol ⟨[], none⟩ "usdc" 137 = (none, none) :=
  ⟨(c10_not_found_absorbed ⟨[], none⟩ "0xT" "usdc" 137).1 rfl rfl,
   (c10_not_found_absorbed ⟨[], none⟩ "0xT" "usdc" 137).2.1 rfl rfl⟩

end ClaimTheorems
